import Mathlib

/-!
Shallow embedding of `cache/blobs/compression.go` (buildkit blob compression
handling): compression sniffing, media-type resolution, the cache-reference
chain walk of `GetMediaTypeForLayers`, and the OCI/Docker media-type
conversion tables, together with theorems settling the specification claims.
-/

set_option autoImplicit false

deriving instance DecidableEq for Except

namespace Compression

/-- `CompressionType` from the source: `Uncompressed = 0`, `Gzip = 1`,
`UnknownCompression = -1` ("not supported yet"). -/
inductive CompressionType where
  | Uncompressed
  | Gzip
  | UnknownCompression
deriving DecidableEq, Repr, Inhabited

/-- `var DefaultCompression = Gzip`. -/
def DefaultCompression : CompressionType := CompressionType.Gzip

/-- An error value returned by the single `cr.Read(buf[:])` call:
either `io.EOF` (stream exhaustion) or any other read error, carried
as an opaque message. -/
inductive IOErr where
  | eof
  | other (msg : String)
deriving DecidableEq, Repr

/-- The one entry of the signature table in `detectCompressionType`:
`Gzip: {0x1F, 0x8B, 0x08}`. -/
def gzipSignature : List Nat := [0x1F, 0x8B, 0x08]

/-- `detectCompressionType(cr io.Reader)`. The outcome of the single
`cr.Read(buf[:])` call on the 10-byte buffer is passed in explicitly:
`delivered` is the list of bytes the reader placed into `buf` (so
`n = delivered.length`) and `err` is the error it returned alongside them.
`buf` is the 10-byte array: the delivered bytes followed by its untouched
zero initialisation. A non-nil, non-EOF error yields
`(UnknownCompression, err)`; otherwise the delivered prefix is compared
against the gzip signature exactly as the source's loop does (skipping the
comparison when `n` is shorter than the signature), and `Uncompressed`
is returned when nothing matches. -/
def detectCompressionType (delivered : List Nat) (err : Option IOErr) :
    CompressionType × Option IOErr :=
  let n := delivered.length
  let buf := (delivered ++ List.replicate (10 - n) 0).take 10
  if err ≠ none ∧ err ≠ some IOErr.eof then
    (CompressionType.UnknownCompression, err)
  else if n < gzipSignature.length then
    (CompressionType.Uncompressed, none)
  else if buf.take gzipSignature.length = gzipSignature then
    (CompressionType.Gzip, none)
  else
    (CompressionType.Uncompressed, none)

/-- `ocispec.MediaTypeImageLayer`. -/
def MediaTypeImageLayer : String := "application/vnd.oci.image.layer.v1.tar"

/-- `ocispec.MediaTypeImageLayerGzip`. -/
def MediaTypeImageLayerGzip : String := "application/vnd.oci.image.layer.v1.tar+gzip"

/-- `images.MediaTypeDockerSchema2Layer`. -/
def MediaTypeDockerSchema2Layer : String := "application/vnd.docker.image.rootfs.diff.tar"

/-- `images.MediaTypeDockerSchema2LayerGzip`. -/
def MediaTypeDockerSchema2LayerGzip : String := "application/vnd.docker.image.rootfs.diff.tar.gzip"

/-- The error values `DetectLayerMediaType` can return, distinguished by
provenance: an error from `cs.ReaderAt`, a read error propagated out of
`detectCompressionType`, or the error constructed by the `switch` default
branch via `errors.Errorf("failed to detect layer %v compression type", id)`,
which carries the blob digest `id`. -/
inductive DetectErr where
  | readerAt (msg : String)
  | readFailure (e : IOErr)
  | failedToDetect (id : String)
deriving DecidableEq, Repr

/-- `DetectLayerMediaType(ctx, cs, id, oci)`. The interaction with the
content store is passed in explicitly: `raErr` is the error (if any) of the
`cs.ReaderAt` call, and `delivered`/`readErr` are the outcome of the read
performed inside `detectCompressionType`. The function propagates `raErr`,
then any error from `detectCompressionType`, and otherwise resolves the
detected `CompressionType` through the `switch` on `ct`. -/
def DetectLayerMediaType (raErr : Option String) (delivered : List Nat)
    (readErr : Option IOErr) (id : String) (oci : Bool) :
    Except DetectErr String :=
  match raErr with
  | some e => Except.error (DetectErr.readerAt e)
  | none =>
    match detectCompressionType delivered readErr with
    | (_, some e) => Except.error (DetectErr.readFailure e)
    | (ct, none) =>
      match ct with
      | CompressionType.Uncompressed =>
        if oci then Except.ok MediaTypeImageLayer
        else Except.ok MediaTypeDockerSchema2Layer
      | CompressionType.Gzip =>
        if oci then Except.ok MediaTypeImageLayerGzip
        else Except.ok MediaTypeDockerSchema2LayerGzip
      | CompressionType.UnknownCompression =>
        Except.error (DetectErr.failedToDetect id)

/-- `DiffPair` (from the package): expected digests, `DiffID` of the
uncompressed layer and `Blobsum` of the stored blob. -/
structure DiffPair where
  DiffID : String
  Blobsum : String
deriving DecidableEq, Repr, Inhabited

/-- The data `tref.Info()` exposes on a cache ref: its diff ID, blob
digest and recorded media type. -/
structure RefInfo where
  DiffID : String
  Blob : String
  MediaType : String
deriving DecidableEq, Repr, Inhabited

/-- `tref.Info()` for the handle at chain index `tidx` (index 0 is the
child-most ref, the clone of the head). On every reachable state of the
walk `tidx` is in bounds, so the default is never consulted. -/
def refInfoAt (chain : List RefInfo) (tidx : Nat) : RefInfo :=
  chain.getD tidx default

/-- `tref.Parent()`: the handle one step toward the root, or `none` at
the root of the chain. -/
def refParent (chain : List RefInfo) (tidx : Nat) : Option Nat :=
  if tidx + 1 < chain.length then some (tidx + 1) else none

/-- The `for i := range diffPairs` loop of `GetMediaTypeForLayers`.
The fuel argument counts the remaining iterations, so at fuel `f + 1`
the loop variable is `i = diffPairs.length - (f + 1)` and the examined
pair is `diffPairs[len-1-i] = diffPairs[f]`; `tidx` is the chain index
of the handle currently held in `tref`. Besides `layerTypes` the loop
threads the instrumented lists `rel` and `acq` of chain indices of the
handles released (`tref.Release`) and acquired (`tref.Parent` returning
non-nil) so far; it returns the final `layerTypes`, the handle still held
when the loop ends (`none` when the walk ran off the root), and the two
lists. Following the source, a matching step records `info.MediaType` at
position `f`, acquires the parent, releases the current handle and either
continues or stops when the parent is nil; a mismatching step stops at
once with the current handle still held. -/
def gmtLoop (diffPairs : List DiffPair) (chain : List RefInfo) :
    Nat → Nat → List String → List Nat → List Nat →
    List String × Option Nat × List Nat × List Nat
  | 0, tidx, layerTypes, rel, acq => (layerTypes, some tidx, rel, acq)
  | f + 1, tidx, layerTypes, rel, acq =>
    let dp := diffPairs.getD f default
    let info := refInfoAt chain tidx
    if ¬(info.DiffID = dp.DiffID ∧ info.Blob = dp.Blobsum) then
      (layerTypes, some tidx, rel, acq)
    else
      let layerTypes' := layerTypes.set f info.MediaType
      match refParent chain tidx with
      | some p => gmtLoop diffPairs chain f p layerTypes' (rel ++ [tidx]) (acq ++ [p])
      | none => (layerTypes', none, rel ++ [tidx], acq)

/-- `GetMediaTypeForLayers(diffPairs, ref)`. The chain lists the infos of
the refs reachable from `ref` in child→parent order; the empty list models
a nil `ref`. `ref.Clone()` acquires the handle at chain index 0, then the
loop walks the chain; a handle still held after the loop is released.
The result is the `layerTypes` slice together with the instrumented lists
of released and acquired handle indices. -/
def GetMediaTypeForLayers (diffPairs : List DiffPair) (chain : List RefInfo) :
    List String × List Nat × List Nat :=
  let layerTypes := List.replicate diffPairs.length ""
  if chain.isEmpty then (layerTypes, [], [])
  else
    match gmtLoop diffPairs chain diffPairs.length 0 layerTypes [] [0] with
    | (lt, some t, rel, acq) => (lt, rel ++ [t], acq)
    | (lt, none, rel, acq) => (lt, rel, acq)

/-- The `toDockerLayerType` map. A Go map lookup returns the zero value
`""` for a key outside the table. -/
def toDockerLayerType (mediaType : String) : String :=
  if mediaType = MediaTypeImageLayer then MediaTypeDockerSchema2Layer
  else if mediaType = MediaTypeDockerSchema2Layer then MediaTypeDockerSchema2Layer
  else if mediaType = MediaTypeImageLayerGzip then MediaTypeDockerSchema2LayerGzip
  else if mediaType = MediaTypeDockerSchema2LayerGzip then MediaTypeDockerSchema2LayerGzip
  else ""

/-- The `toOCILayerType` map. A Go map lookup returns the zero value
`""` for a key outside the table. -/
def toOCILayerType (mediaType : String) : String :=
  if mediaType = MediaTypeImageLayer then MediaTypeImageLayer
  else if mediaType = MediaTypeDockerSchema2Layer then MediaTypeImageLayer
  else if mediaType = MediaTypeImageLayerGzip then MediaTypeImageLayerGzip
  else if mediaType = MediaTypeDockerSchema2LayerGzip then MediaTypeImageLayerGzip
  else ""

/-- `ConvertLayerMediaType(mediaType, oci)`. The second component counts
the `logrus.Warnf` diagnostics emitted: one when the lookup missed (the
converted value is the zero value `""`), in which case the input is
returned unchanged, and zero otherwise. -/
def ConvertLayerMediaType (mediaType : String) (oci : Bool) : String × Nat :=
  let converted := if oci then toOCILayerType mediaType else toDockerLayerType mediaType
  if converted = "" then (mediaType, 1) else (converted, 0)

/-- One unfolding step of the walk loop. -/
lemma gmtLoop_succ (dps : List DiffPair) (chain : List RefInfo) (f tidx : Nat)
    (lt : List String) (rel acq : List Nat) :
    gmtLoop dps chain (f + 1) tidx lt rel acq =
      if ¬((refInfoAt chain tidx).DiffID = (dps.getD f default).DiffID ∧
           (refInfoAt chain tidx).Blob = (dps.getD f default).Blobsum) then
        (lt, some tidx, rel, acq)
      else
        match refParent chain tidx with
        | some p => gmtLoop dps chain f p
            (lt.set f (refInfoAt chain tidx).MediaType) (rel ++ [tidx]) (acq ++ [p])
        | none =>
          (lt.set f (refInfoAt chain tidx).MediaType, none, rel ++ [tidx], acq) :=
  rfl

/-- A run of the loop in which every remaining step matches: with `f` steps
of fuel left, the cursor at chain index `tidx`, and `tidx + f` handles not
exceeding the chain, every examined pair matching its ref lets the loop
fill positions `0 … f-1` of `layerTypes` with the media types recorded at
chain indices `tidx + f - 1 … tidx`, leaving all other positions
untouched. -/
lemma gmtLoop_fst_run (dps : List DiffPair) (chain : List RefInfo) :
    ∀ (f tidx : Nat) (lt : List String) (rel acq : List Nat),
      f ≤ lt.length →
      tidx + f ≤ chain.length →
      (∀ j, j < f →
        (refInfoAt chain (tidx + j)).DiffID =
          (dps.getD (f - 1 - j) default).DiffID ∧
        (refInfoAt chain (tidx + j)).Blob =
          (dps.getD (f - 1 - j) default).Blobsum) →
      (gmtLoop dps chain f tidx lt rel acq).1.length = lt.length ∧
      (∀ p, p < f → (gmtLoop dps chain f tidx lt rel acq).1[p]? =
          some (refInfoAt chain (tidx + (f - 1 - p))).MediaType) ∧
      (∀ p, f ≤ p → (gmtLoop dps chain f tidx lt rel acq).1[p]? = lt[p]?) := by
  intro f
  induction f with
  | zero =>
    intro tidx lt rel acq _ _ _
    exact ⟨rfl, fun p hp => absurd hp (Nat.not_lt_zero p), fun p _ => rfl⟩
  | succ f ih =>
    intro tidx lt rel acq hf hchain hmatch
    have h0 := hmatch 0 (Nat.succ_pos f)
    rw [Nat.add_zero] at h0
    have h0' : (refInfoAt chain tidx).DiffID = (dps.getD f default).DiffID ∧
        (refInfoAt chain tidx).Blob = (dps.getD f default).Blobsum := by
      have he : f + 1 - 1 - 0 = f := by omega
      rw [he] at h0
      exact h0
    rw [gmtLoop_succ, if_neg (not_not_intro h0')]
    by_cases hp : tidx + 1 < chain.length
    · simp only [refParent, if_pos hp]
      have hrec := ih (tidx + 1) (lt.set f (refInfoAt chain tidx).MediaType)
        (rel ++ [tidx]) (acq ++ [tidx + 1])
        (by rw [List.length_set]; omega) (by omega)
        (by
          intro j hj
          have hm := hmatch (j + 1) (by omega)
          have h1 : tidx + (j + 1) = tidx + 1 + j := by omega
          have h2 : f + 1 - 1 - (j + 1) = f - 1 - j := by omega
          rw [h1, h2] at hm
          exact hm)
      obtain ⟨hlen, hset, hkeep⟩ := hrec
      refine ⟨by rw [hlen, List.length_set], fun p hp' => ?_, fun p hp' => ?_⟩
      · by_cases hpf : p < f
        · have := hset p hpf
          have he : tidx + 1 + (f - 1 - p) = tidx + (f + 1 - 1 - p) := by omega
          rw [he] at this
          exact this
        · have hpeq : p = f := by omega
          subst hpeq
          have := hkeep p (le_refl p)
          rw [this, List.getElem?_set_eq_of_lt _ (by omega)]
          have he : p + 1 - 1 - p = 0 := by omega
          rw [he, Nat.add_zero]
      · have := hkeep p (by omega)
        rw [this, List.getElem?_set_ne (by omega)]
    · simp only [refParent, if_neg hp]
      have hf0 : f = 0 := by omega
      subst hf0
      refine ⟨List.length_set .., fun p hp' => ?_, fun p hp' => ?_⟩
      · have hpeq : p = 0 := by omega
        subst hpeq
        rw [List.getElem?_set_eq_of_lt _ (by omega)]
        rfl
      · rw [List.getElem?_set_ne (by omega)]

/-- A run of the loop that stops on the first mismatch: the next `k` steps
match, the step after them examines a mismatching ref, and the loop fills
exactly positions `f-k … f-1` of `layerTypes`, holds the mismatching
handle, and leaves every other position untouched. -/
lemma gmtLoop_fst_stop (dps : List DiffPair) (chain : List RefInfo) :
    ∀ (k f tidx : Nat) (lt : List String) (rel acq : List Nat),
      k < f →
      f ≤ lt.length →
      tidx + k < chain.length →
      (∀ j, j < k →
        (refInfoAt chain (tidx + j)).DiffID =
          (dps.getD (f - 1 - j) default).DiffID ∧
        (refInfoAt chain (tidx + j)).Blob =
          (dps.getD (f - 1 - j) default).Blobsum) →
      ¬((refInfoAt chain (tidx + k)).DiffID =
          (dps.getD (f - 1 - k) default).DiffID ∧
        (refInfoAt chain (tidx + k)).Blob =
          (dps.getD (f - 1 - k) default).Blobsum) →
      (gmtLoop dps chain f tidx lt rel acq).1.length = lt.length ∧
      (∀ p, f - k ≤ p → p < f → (gmtLoop dps chain f tidx lt rel acq).1[p]? =
          some (refInfoAt chain (tidx + (f - 1 - p))).MediaType) ∧
      (∀ p, p < f - k → (gmtLoop dps chain f tidx lt rel acq).1[p]? = lt[p]?) ∧
      (∀ p, f ≤ p → (gmtLoop dps chain f tidx lt rel acq).1[p]? = lt[p]?) := by
  intro k
  induction k with
  | zero =>
    intro f tidx lt rel acq hkf hflt hkc hmatch hmis
    match f, hkf with
    | f + 1, _ =>
      rw [Nat.add_zero] at hmis
      rw [gmtLoop_succ, if_pos (by
        have he : f + 1 - 1 - 0 = f := by omega
        rw [he] at hmis
        exact hmis)]
      exact ⟨rfl, fun p h1 h2 => by omega, fun p _ => rfl, fun p _ => rfl⟩
  | succ k ih =>
    intro f tidx lt rel acq hkf hflt hkc hmatch hmis
    match f, hkf with
    | f + 1, hkf =>
      have h0 := hmatch 0 (Nat.succ_pos k)
      rw [Nat.add_zero] at h0
      have h0' : (refInfoAt chain tidx).DiffID = (dps.getD f default).DiffID ∧
          (refInfoAt chain tidx).Blob = (dps.getD f default).Blobsum := by
        have he : f + 1 - 1 - 0 = f := by omega
        rw [he] at h0
        exact h0
      rw [gmtLoop_succ, if_neg (not_not_intro h0')]
      have hp : tidx + 1 < chain.length := by omega
      simp only [refParent, if_pos hp]
      have hrec := ih f (tidx + 1) (lt.set f (refInfoAt chain tidx).MediaType)
        (rel ++ [tidx]) (acq ++ [tidx + 1])
        (by omega) (by rw [List.length_set]; omega) (by omega)
        (by
          intro j hj
          have hm := hmatch (j + 1) (by omega)
          have h1 : tidx + (j + 1) = tidx + 1 + j := by omega
          have h2 : f + 1 - 1 - (j + 1) = f - 1 - j := by omega
          rw [h1, h2] at hm
          exact hm)
        (by
          have h1 : tidx + (k + 1) = tidx + 1 + k := by omega
          have h2 : f + 1 - 1 - (k + 1) = f - 1 - k := by omega
          rw [h1, h2] at hmis
          exact hmis)
      obtain ⟨hlen, hset, hkeep, hkeep'⟩ := hrec
      refine ⟨by rw [hlen, List.length_set], fun p hp1 hp2 => ?_,
        fun p hp1 => ?_, fun p hp1 => ?_⟩
      · by_cases hpf : p < f
        · have := hset p (by omega) hpf
          have he : tidx + 1 + (f - 1 - p) = tidx + (f + 1 - 1 - p) := by omega
          rw [he] at this
          exact this
        · have hpeq : p = f := by omega
          subst hpeq
          have := hkeep' p (le_refl p)
          rw [this, List.getElem?_set_eq_of_lt _ (by omega)]
          have he : p + 1 - 1 - p = 0 := by omega
          rw [he, Nat.add_zero]
      · have := hkeep p (by omega)
        rw [this, List.getElem?_set_ne (by omega)]
      · have := hkeep' p (by omega)
        rw [this, List.getElem?_set_ne (by omega)]

/-- Handle accounting for the loop: entering the loop at chain index
`tidx` with handles `0 … tidx` acquired and `0 … tidx-1` already released,
some final index `m` is reached, all of `0 … m` get acquired, and either
the loop still holds handle `m` with `0 … m-1` released, or it released
everything through `m` and holds nothing. -/
lemma gmtLoop_handles (dps : List DiffPair) (chain : List RefInfo) :
    ∀ (f tidx : Nat) (lt : List String) (rel acq : List Nat),
      rel = List.range tidx → acq = List.range (tidx + 1) →
      ∃ m, tidx ≤ m ∧
        (gmtLoop dps chain f tidx lt rel acq).2.2.2 = List.range (m + 1) ∧
        (((gmtLoop dps chain f tidx lt rel acq).2.1 = some m ∧
          (gmtLoop dps chain f tidx lt rel acq).2.2.1 = List.range m) ∨
         ((gmtLoop dps chain f tidx lt rel acq).2.1 = none ∧
          (gmtLoop dps chain f tidx lt rel acq).2.2.1 = List.range (m + 1))) := by
  intro f
  induction f with
  | zero =>
    intro tidx lt rel acq hrel hacq
    exact ⟨tidx, le_refl tidx, hacq, Or.inl ⟨rfl, hrel⟩⟩
  | succ f ih =>
    intro tidx lt rel acq hrel hacq
    rw [gmtLoop_succ]
    by_cases hc : ¬((refInfoAt chain tidx).DiffID =
        (dps.getD f default).DiffID ∧
      (refInfoAt chain tidx).Blob = (dps.getD f default).Blobsum)
    · rw [if_pos hc]
      exact ⟨tidx, le_refl tidx, hacq, Or.inl ⟨rfl, hrel⟩⟩
    · rw [if_neg hc]
      by_cases hp : tidx + 1 < chain.length
      · have hpar : refParent chain tidx = some (tidx + 1) := by
          unfold refParent
          exact if_pos hp
        rw [hpar]
        obtain ⟨m, hm, h1, h2⟩ := ih (tidx + 1)
          (lt.set f (refInfoAt chain tidx).MediaType)
          (rel ++ [tidx]) (acq ++ [tidx + 1])
          (by rw [hrel]; exact (List.range_succ tidx).symm)
          (by rw [hacq]; exact (List.range_succ (tidx + 1)).symm)
        exact ⟨m, by omega, h1, h2⟩
      · have hpar : refParent chain tidx = none := by
          unfold refParent
          exact if_neg hp
        rw [hpar]
        refine ⟨tidx, le_refl tidx, hacq, Or.inr ⟨rfl, ?_⟩⟩
        rw [hrel]
        exact (List.range_succ tidx).symm

/-- `GetMediaTypeForLayers` on a non-nil ref, written out in terms of the
loop: the final release happens exactly when the loop still holds a
handle. -/
lemma GetMediaTypeForLayers_eq (dps : List DiffPair) (chain : List RefInfo)
    (h : chain ≠ []) :
    GetMediaTypeForLayers dps chain =
      ((gmtLoop dps chain dps.length 0
          (List.replicate dps.length "") [] [0]).1,
       (match (gmtLoop dps chain dps.length 0
            (List.replicate dps.length "") [] [0]).2.1 with
        | some t => (gmtLoop dps chain dps.length 0
            (List.replicate dps.length "") [] [0]).2.2.1 ++ [t]
        | none => (gmtLoop dps chain dps.length 0
            (List.replicate dps.length "") [] [0]).2.2.1),
       (gmtLoop dps chain dps.length 0
          (List.replicate dps.length "") [] [0]).2.2.2) := by
  unfold GetMediaTypeForLayers
  rw [if_neg (by simp [h])]
  rcases hgl : gmtLoop dps chain dps.length 0
      (List.replicate dps.length "") [] [0] with ⟨lt, tr, rel, acq⟩
  cases tr <;> rfl

/-- Claim C1: with N diff pairs and a chain of exactly N refs in which
every step of the child-to-parent walk matches the corresponding pair,
`GetMediaTypeForLayers` returns N strings where position `j`
(parent-to-child order) holds the media type recorded in the ref matched
against pair `j` — the ref at chain index `N-1-j` — with no empty
entries. -/
theorem getMediaTypeForLayers_full_match
    (dps : List DiffPair) (chain : List RefInfo)
    (hlen : chain.length = dps.length)
    (hmatch : ∀ i, i < chain.length →
      (refInfoAt chain i).DiffID =
        (dps.getD (dps.length - 1 - i) default).DiffID ∧
      (refInfoAt chain i).Blob =
        (dps.getD (dps.length - 1 - i) default).Blobsum)
    (hmt : ∀ r, r ∈ chain → r.MediaType ≠ "") :
    (GetMediaTypeForLayers dps chain).1.length = dps.length ∧
    ∀ j, j < dps.length →
      (GetMediaTypeForLayers dps chain).1[j]? =
        some (refInfoAt chain (dps.length - 1 - j)).MediaType ∧
      (refInfoAt chain (dps.length - 1 - j)).MediaType ≠ "" := by
  by_cases hnil : chain = []
  · subst hnil
    have h0 : dps.length = 0 := by simpa using hlen.symm
    refine ⟨by simp [GetMediaTypeForLayers], fun j hj => ?_⟩
    omega
  · rw [GetMediaTypeForLayers_eq dps chain hnil]
    dsimp only
    obtain ⟨hL, hset, _⟩ := gmtLoop_fst_run dps chain dps.length 0
      (List.replicate dps.length "") [] [0]
      (by simp) (by omega)
      (by
        intro j hj
        have h := hmatch j (by omega)
        rw [Nat.zero_add]
        exact h)
    refine ⟨by rw [hL, List.length_replicate], fun j hj => ?_⟩
    have h1 := hset j hj
    rw [Nat.zero_add] at h1
    refine ⟨h1, ?_⟩
    apply hmt
    have hidx : dps.length - 1 - j < chain.length := by omega
    rw [refInfoAt, List.getD_eq_getElem _ _ hidx]
    exact List.getElem_mem hidx

/-- Witness for C1: two layers, both matching; both recorded media types
are returned in parent-to-child order. -/
theorem getMediaTypeForLayers_full_match_witness :
    (GetMediaTypeForLayers [⟨"d0", "b0"⟩, ⟨"d1", "b1"⟩]
        [⟨"d1", "b1", "mtChild"⟩, ⟨"d0", "b0", "mtParent"⟩]).1[0]? =
      some "mtParent" ∧
    (GetMediaTypeForLayers [⟨"d0", "b0"⟩, ⟨"d1", "b1"⟩]
        [⟨"d1", "b1", "mtChild"⟩, ⟨"d0", "b0", "mtParent"⟩]).1[1]? =
      some "mtChild" := by
  have h := getMediaTypeForLayers_full_match
    [⟨"d0", "b0"⟩, ⟨"d1", "b1"⟩]
    [⟨"d1", "b1", "mtChild"⟩, ⟨"d0", "b0", "mtParent"⟩]
    (by decide) (by decide) (by decide)
  exact ⟨((h.2 0 (by decide)).1).trans rfl, ((h.2 1 (by decide)).1).trans rfl⟩

/-- Claim C2 counterexample: N = 2, first mismatch at chain position
k = 0 (the head ref; its hashes differ from the child-most pair while the
parent would match). The claim predicts N-1-k = 1 non-empty entry, but
the walk stops at once and returns no non-empty entry. -/
theorem getMediaTypeForLayers_mismatch_cex :
    ¬((refInfoAt [⟨"dX", "bX", "mh"⟩, ⟨"d0", "b0", "mp"⟩] 0).DiffID =
        "d1" ∧
      (refInfoAt [⟨"dX", "bX", "mh"⟩, ⟨"d0", "b0", "mp"⟩] 0).Blob = "b1") ∧
    ((GetMediaTypeForLayers [⟨"d0", "b0"⟩, ⟨"d1", "b1"⟩]
        [⟨"dX", "bX", "mh"⟩, ⟨"d0", "b0", "mp"⟩]).1.filter
          (fun s => !(s == ""))).length ≠ 2 - 1 - 0 := by decide

/-- Claim C2 (amended): with the first mismatch at chain position `k`
(0-indexed from the child end), `GetMediaTypeForLayers` returns non-empty,
correct entries exactly for the `k` positions strictly child-ward of the
mismatch — array positions `N-k … N-1`, position `p` holding the media
type recorded in the ref at chain index `N-1-p` — while the mismatch
position `N-1-k` and every position ancestral to it holds the empty
string. -/
theorem getMediaTypeForLayers_mismatch
    (dps : List DiffPair) (chain : List RefInfo) (k : Nat)
    (hkN : k < dps.length)
    (hkc : k < chain.length)
    (hmatch : ∀ j, j < k →
      (refInfoAt chain j).DiffID =
        (dps.getD (dps.length - 1 - j) default).DiffID ∧
      (refInfoAt chain j).Blob =
        (dps.getD (dps.length - 1 - j) default).Blobsum)
    (hmis : ¬((refInfoAt chain k).DiffID =
        (dps.getD (dps.length - 1 - k) default).DiffID ∧
      (refInfoAt chain k).Blob =
        (dps.getD (dps.length - 1 - k) default).Blobsum))
    (hmt : ∀ r, r ∈ chain → r.MediaType ≠ "") :
    (GetMediaTypeForLayers dps chain).1.length = dps.length ∧
    (∀ p, dps.length - k ≤ p → p < dps.length →
      (GetMediaTypeForLayers dps chain).1[p]? =
        some (refInfoAt chain (dps.length - 1 - p)).MediaType ∧
      (refInfoAt chain (dps.length - 1 - p)).MediaType ≠ "") ∧
    (∀ p, p < dps.length - k →
      (GetMediaTypeForLayers dps chain).1[p]? = some "") := by
  have hnil : chain ≠ [] := by
    intro h
    rw [h] at hkc
    simp at hkc
  rw [GetMediaTypeForLayers_eq dps chain hnil]
  dsimp only
  obtain ⟨hL, hset, hkeep, _⟩ := gmtLoop_fst_stop dps chain k dps.length 0
    (List.replicate dps.length "") [] [0] hkN (by simp) (by omega)
    (by
      intro j hj
      have h := hmatch j (by omega)
      rw [Nat.zero_add]
      exact h)
    (by
      rw [Nat.zero_add]
      exact hmis)
  refine ⟨by rw [hL, List.length_replicate], fun p hp1 hp2 => ?_,
    fun p hp1 => ?_⟩
  · have h1 := hset p hp1 hp2
    rw [Nat.zero_add] at h1
    refine ⟨h1, ?_⟩
    apply hmt
    have hidx : dps.length - 1 - p < chain.length := by omega
    rw [refInfoAt, List.getD_eq_getElem _ _ hidx]
    exact List.getElem_mem hidx
  · have h1 := hkeep p hp1
    rw [h1, List.getElem?_replicate, if_pos (by omega)]

/-- Witness for the amended C2: two layers, head matching, parent
mismatching (k = 1): the child position keeps its recorded media type, the
mismatch position is empty. -/
theorem getMediaTypeForLayers_mismatch_witness :
    (GetMediaTypeForLayers [⟨"d0", "b0"⟩, ⟨"d1", "b1"⟩]
        [⟨"d1", "b1", "mtChild"⟩, ⟨"dX", "bX", "mtParent"⟩]).1[1]? =
      some "mtChild" ∧
    (GetMediaTypeForLayers [⟨"d0", "b0"⟩, ⟨"d1", "b1"⟩]
        [⟨"d1", "b1", "mtChild"⟩, ⟨"dX", "bX", "mtParent"⟩]).1[0]? =
      some "" := by
  have h := getMediaTypeForLayers_mismatch
    [⟨"d0", "b0"⟩, ⟨"d1", "b1"⟩]
    [⟨"d1", "b1", "mtChild"⟩, ⟨"dX", "bX", "mtParent"⟩] 1
    (by decide) (by decide) (by decide) (by decide) (by decide)
  exact ⟨((h.2.1 1 (by decide) (by decide)).1).trans rfl, h.2.2 0 (by decide)⟩

/-- Claim C3: on every input with a non-nil head ref and on every exit
path, each handle the walk obtains (the clone at chain index 0 and every
parent handle) is released exactly once before the function returns: the
instrumented release list equals the acquisition list, and each acquired
index is counted exactly once among the releases. -/
theorem getMediaTypeForLayers_release_once
    (dps : List DiffPair) (chain : List RefInfo) (hne : chain ≠ []) :
    (GetMediaTypeForLayers dps chain).2.1 =
      (GetMediaTypeForLayers dps chain).2.2 ∧
    ∀ h, h ∈ (GetMediaTypeForLayers dps chain).2.2 →
      (GetMediaTypeForLayers dps chain).2.1.count h = 1 := by
  obtain ⟨m, hm, hacq, hcase⟩ := gmtLoop_handles dps chain dps.length 0
    (List.replicate dps.length "") [] [0] rfl rfl
  have hmain : (GetMediaTypeForLayers dps chain).2.1 = List.range (m + 1) ∧
      (GetMediaTypeForLayers dps chain).2.2 = List.range (m + 1) := by
    rw [GetMediaTypeForLayers_eq dps chain hne]
    dsimp only
    rcases hcase with ⟨h1, h2⟩ | ⟨h1, h2⟩
    · rw [h1, h2]
      exact ⟨(List.range_succ m).symm, hacq⟩
    · rw [h1, h2]
      exact ⟨rfl, hacq⟩
  refine ⟨hmain.1.trans hmain.2.symm, fun h hmem => ?_⟩
  rw [hmain.2] at hmem
  rw [hmain.1]
  exact List.count_eq_one_of_mem (List.nodup_range (m + 1)) hmem

/-- Witness for C3 on a one-layer chain: the release list equals the
acquisition list and the cloned handle 0 is released exactly once. -/
theorem getMediaTypeForLayers_release_once_witness :
    (GetMediaTypeForLayers [⟨"d0", "b0"⟩] [⟨"d0", "b0", "mt"⟩]).2.1 =
      (GetMediaTypeForLayers [⟨"d0", "b0"⟩] [⟨"d0", "b0", "mt"⟩]).2.2 ∧
    (GetMediaTypeForLayers [⟨"d0", "b0"⟩] [⟨"d0", "b0", "mt"⟩]).2.1.count 0 =
      1 := by
  have h := getMediaTypeForLayers_release_once
    [⟨"d0", "b0"⟩] [⟨"d0", "b0", "mt"⟩] (by decide)
  exact ⟨h.1, h.2 0 (by decide)⟩

/-- Claim C9: with a nil head reference (the empty chain),
`GetMediaTypeForLayers` returns exactly N empty strings for N diff
pairs. -/
theorem getMediaTypeForLayers_nil_ref (dps : List DiffPair) :
    (GetMediaTypeForLayers dps []).1 = List.replicate dps.length "" := by
  simp [GetMediaTypeForLayers]

/-- Case split on `detectCompressionType`: either it succeeds with
`Uncompressed` or `Gzip` and a nil error, or the read failed with a
non-EOF error, which is returned alongside `UnknownCompression`. -/
lemma detectCompressionType_cases (delivered : List Nat) (err : Option IOErr) :
    (((detectCompressionType delivered err).1 = CompressionType.Uncompressed ∨
      (detectCompressionType delivered err).1 = CompressionType.Gzip) ∧
      (detectCompressionType delivered err).2 = none) ∨
    (∃ e, e ≠ IOErr.eof ∧ err = some e ∧
      detectCompressionType delivered err =
        (CompressionType.UnknownCompression, some e)) := by
  unfold detectCompressionType
  by_cases h1 : err ≠ none ∧ err ≠ some IOErr.eof
  · right
    match err, h1 with
    | some e, h1 =>
      refine ⟨e, ?_, rfl, by rw [if_pos h1]⟩
      intro he
      exact h1.2 (by rw [he])
    | none, h1 => exact absurd rfl h1.1
  · left
    rw [if_neg h1]
    split
    · exact ⟨Or.inl rfl, rfl⟩
    · split
      · exact ⟨Or.inr rfl, rfl⟩
      · exact ⟨Or.inl rfl, rfl⟩

/-- Claim C5: a stream whose first three bytes are `0x1F 0x8B 0x08` and
whose read delivers at least those three bytes (with no error, or only
`io.EOF`) is detected as Gzip with no error, whatever follows the
signature and however long the stream is. -/
theorem detectCompressionType_gzip_sig (rest : List Nat) (err : Option IOErr)
    (herr : err = none ∨ err = some IOErr.eof) :
    detectCompressionType (0x1F :: 0x8B :: 0x08 :: rest) err =
      (CompressionType.Gzip, none) := by
  rcases herr with rfl | rfl <;> simp [detectCompressionType, gzipSignature]

/-- Witness for C5: four delivered bytes, gzip signature then garbage. -/
theorem detectCompressionType_gzip_sig_witness :
    detectCompressionType [0x1F, 0x8B, 0x08, 0xFF] none =
      (CompressionType.Gzip, none) :=
  detectCompressionType_gzip_sig [0xFF] none (Or.inl rfl)

/-- Claim C6: a zero-length blob, whose read immediately reports `io.EOF`
with zero bytes delivered, is classified as Uncompressed with no error;
moreover stream exhaustion never surfaces as an error, whatever was
delivered alongside it. -/
theorem detectCompressionType_empty_stream :
    detectCompressionType [] (some IOErr.eof) =
      (CompressionType.Uncompressed, none) ∧
    ∀ delivered : List Nat,
      (detectCompressionType delivered (some IOErr.eof)).2 = none := by
  refine ⟨by decide, fun delivered => ?_⟩
  unfold detectCompressionType
  rw [if_neg (by simp)]
  split
  · rfl
  · split <;> rfl

/-- Claim C7: on a media type outside the four canonical values,
`ConvertLayerMediaType` returns its input unchanged and emits exactly one
diagnostic, for either target convention; it never fails. -/
theorem convertLayerMediaType_unknown (s : String) (oci : Bool)
    (h1 : s ≠ MediaTypeImageLayer) (h2 : s ≠ MediaTypeImageLayerGzip)
    (h3 : s ≠ MediaTypeDockerSchema2Layer)
    (h4 : s ≠ MediaTypeDockerSchema2LayerGzip) :
    ConvertLayerMediaType s oci = (s, 1) := by
  cases oci <;>
    simp [ConvertLayerMediaType, toOCILayerType, toDockerLayerType, h1, h2, h3, h4]

/-- Witness for C7 at a concrete unrecognized media type. -/
theorem convertLayerMediaType_unknown_witness :
    ConvertLayerMediaType "application/foo" true = ("application/foo", 1) :=
  convertLayerMediaType_unknown "application/foo" true
    (by decide) (by decide) (by decide) (by decide)

/-- Claim C4 counterexample: for the OCI uncompressed layer media type, the
to-OCI-then-to-Docker roundtrip lands on the Docker media type, not on the
input. -/
theorem convertLayerMediaType_roundtrip_cex :
    (ConvertLayerMediaType
        (ConvertLayerMediaType MediaTypeImageLayer true).1 false).1 ≠
      MediaTypeImageLayer := by decide

/-- Claim C4 (amended): the to-OCI-then-to-Docker roundtrip is the identity
on the two Docker canonical media types, while the two OCI canonical media
types land on their Docker counterparts. -/
theorem convertLayerMediaType_roundtrip :
    (ConvertLayerMediaType
        (ConvertLayerMediaType MediaTypeDockerSchema2Layer true).1 false).1 =
      MediaTypeDockerSchema2Layer ∧
    (ConvertLayerMediaType
        (ConvertLayerMediaType MediaTypeDockerSchema2LayerGzip true).1 false).1 =
      MediaTypeDockerSchema2LayerGzip ∧
    (ConvertLayerMediaType
        (ConvertLayerMediaType MediaTypeImageLayer true).1 false).1 =
      MediaTypeDockerSchema2Layer ∧
    (ConvertLayerMediaType
        (ConvertLayerMediaType MediaTypeImageLayerGzip true).1 false).1 =
      MediaTypeDockerSchema2LayerGzip := by decide

/-- Claim C8 counterexample: when a failing read makes detection yield
`UnknownCompression`, `DetectLayerMediaType` returns the propagated read
error, not the digest-naming detection-failure error. -/
theorem detectLayerMediaType_unknown_cex :
    (detectCompressionType [] (some (IOErr.other "read failed"))).1 =
      CompressionType.UnknownCompression ∧
    DetectLayerMediaType none [] (some (IOErr.other "read failed"))
        "sha256:abc" true =
      Except.error (DetectErr.readFailure (IOErr.other "read failed")) ∧
    DetectLayerMediaType none [] (some (IOErr.other "read failed"))
        "sha256:abc" true ≠
      Except.error (DetectErr.failedToDetect "sha256:abc") := by decide

/-- Claim C8 (amended): when detection yields a `CompressionType` other
than Uncompressed and Gzip it does so together with a non-EOF read error,
and `DetectLayerMediaType` fails with that propagated error (the
digest-naming branch is not taken); when detection yields Uncompressed or
Gzip, the canonical media type selected by the
{Uncompressed, Gzip} × {OCI, Docker} table is returned. -/
theorem detectLayerMediaType_resolution (delivered : List Nat)
    (readErr : Option IOErr) (id : String) (oci : Bool) :
    ((detectCompressionType delivered readErr).1 =
        CompressionType.UnknownCompression →
      ∃ e, e ≠ IOErr.eof ∧ readErr = some e ∧
        DetectLayerMediaType none delivered readErr id oci =
          Except.error (DetectErr.readFailure e)) ∧
    ((detectCompressionType delivered readErr).1 =
        CompressionType.Uncompressed →
      DetectLayerMediaType none delivered readErr id oci =
        Except.ok (if oci then MediaTypeImageLayer
                   else MediaTypeDockerSchema2Layer)) ∧
    ((detectCompressionType delivered readErr).1 = CompressionType.Gzip →
      DetectLayerMediaType none delivered readErr id oci =
        Except.ok (if oci then MediaTypeImageLayerGzip
                   else MediaTypeDockerSchema2LayerGzip)) := by
  rcases detectCompressionType_cases delivered readErr with
    ⟨hct, hsnd⟩ | ⟨e, hne, hre, hd⟩
  · have hd2 : detectCompressionType delivered readErr =
        ((detectCompressionType delivered readErr).1, none) := by
      rw [← hsnd]
    refine ⟨fun hu => ?_, fun hu => ?_, fun hu => ?_⟩
    · rcases hct with h | h <;> rw [h] at hu <;> simp at hu
    · simp only [DetectLayerMediaType]
      rw [hd2, hu]
      cases oci <;> rfl
    · simp only [DetectLayerMediaType]
      rw [hd2, hu]
      cases oci <;> rfl
  · refine ⟨fun _ => ⟨e, hne, hre, ?_⟩, fun hu => ?_, fun hu => ?_⟩
    · simp only [DetectLayerMediaType]
      rw [hd]
    · rw [hd] at hu
      simp at hu
    · rw [hd] at hu
      simp at hu

/-- Witness for the amended C8: a gzip blob resolves through the table, and
a failing read propagates its own error. -/
theorem detectLayerMediaType_resolution_witness :
    DetectLayerMediaType none [0x1F, 0x8B, 0x08] none "sha256:abc" true =
      Except.ok MediaTypeImageLayerGzip ∧
    (∃ e, e ≠ IOErr.eof ∧
      (some (IOErr.other "boom") : Option IOErr) = some e ∧
      DetectLayerMediaType none [] (some (IOErr.other "boom"))
          "sha256:abc" false =
        Except.error (DetectErr.readFailure e)) := by
  constructor
  · have h :=
      (detectLayerMediaType_resolution [0x1F, 0x8B, 0x08] none
        "sha256:abc" true).2.2 (by decide)
    simpa using h
  · exact (detectLayerMediaType_resolution [] (some (IOErr.other "boom"))
      "sha256:abc" false).1 (by decide)

/-- Claim C10: detection returns `UnknownCompression` only together with a
non-nil error, which `DetectLayerMediaType` returns before reaching its
switch; hence every error `DetectLayerMediaType` returns stems from the
reader-open call or from a non-EOF read failure, and is never the
digest-naming detection-failure error. -/
theorem detectLayerMediaType_no_detection_failure (raErr : Option String)
    (delivered : List Nat) (readErr : Option IOErr) (id : String)
    (oci : Bool) :
    ((detectCompressionType delivered readErr).1 =
        CompressionType.UnknownCompression →
      (detectCompressionType delivered readErr).2.isSome) ∧
    (∀ e, DetectLayerMediaType raErr delivered readErr id oci =
        Except.error e →
      (∃ m, e = DetectErr.readerAt m) ∨
      (∃ io, io ≠ IOErr.eof ∧ e = DetectErr.readFailure io)) ∧
    (∀ id', DetectLayerMediaType raErr delivered readErr id oci ≠
      Except.error (DetectErr.failedToDetect id')) := by
  have hmain : ∀ e, DetectLayerMediaType raErr delivered readErr id oci =
      Except.error e →
      (∃ m, e = DetectErr.readerAt m) ∨
      (∃ io, io ≠ IOErr.eof ∧ e = DetectErr.readFailure io) := by
    intro e he
    match raErr, he with
    | some m, he =>
      simp only [DetectLayerMediaType, Except.error.injEq] at he
      exact Or.inl ⟨m, he.symm⟩
    | none, he =>
      rcases detectCompressionType_cases delivered readErr with
        ⟨hct, hsnd⟩ | ⟨io, hne, hre, hd⟩
      · have hd2 : detectCompressionType delivered readErr =
            ((detectCompressionType delivered readErr).1, none) := by
          rw [← hsnd]
        simp only [DetectLayerMediaType] at he
        rcases hct with h | h <;> rw [hd2, h] at he <;>
          cases oci <;> simp at he
      · simp only [DetectLayerMediaType, hd, Except.error.injEq] at he
        exact Or.inr ⟨io, hne, he.symm⟩
  refine ⟨?_, hmain, ?_⟩
  · intro hu
    rcases detectCompressionType_cases delivered readErr with
      ⟨hct, hsnd⟩ | ⟨io, hne, hre, hd⟩
    · rcases hct with h | h <;> rw [h] at hu <;> simp at hu
    · rw [hd]
      rfl
  · intro id' hcontra
    rcases hmain (DetectErr.failedToDetect id') hcontra with ⟨m, hm⟩ | ⟨io, _, hm⟩ <;>
      exact absurd hm (by simp)

/-- Witness for C10: a failing reader-open yields the propagated open
error, which is of the reader-open kind. -/
theorem detectLayerMediaType_no_detection_failure_witness :
    (∃ m, DetectErr.readerAt "open failed" = DetectErr.readerAt m) ∨
    (∃ io, io ≠ IOErr.eof ∧
      DetectErr.readerAt "open failed" = DetectErr.readFailure io) :=
  (detectLayerMediaType_no_detection_failure (some "open failed") [] none
    "sha256:abc" true).2.1 (DetectErr.readerAt "open failed") rfl

end Compression
